import Mathlib

/-!
Verification of the `pycensus` client library against its specification.

The Python sources are shallowly embedded: pure helpers become Lean
functions, Python exceptions become `Except PyErr`, and HTTP responses
become explicit oracle functions passed in as arguments (every claim here
is about the pure data manipulation around those calls, assuming the
calls themselves succeed).
-/

namespace Pycensus

/-- Embedding of the Python exceptions raised by the library (`ValueError`
with the various messages, `KeyError` from `dict.pop`, `IndexError` from
`[0]`, `ZeroDivisionError` from `len(var_names) / var_batch_size`). -/
inductive PyErr where
  | invalidFilterField (f : String)
  | missingRequiredField (f : String)
  | unsupportedWildcard (f : String)
  | missingArgument (msg : String)
  | keyError (k : String)
  | indexError
  | zeroDivisionError
  deriving DecidableEq, Repr

/-! ## utils.py -/

/-- `utils.batcher(iterable, batch_size)`: repeatedly `islice` off the next
`batch_size` elements and yield the slice while it is non-empty.  With
`batch_size = 0` the first slice is already empty, so nothing is yielded. -/
def batcher (l : List α) (batch_size : Nat) : List (List α) :=
  match l with
  | [] => []
  | a :: as =>
    if _h : batch_size = 0 then []
    else (a :: as).take batch_size :: batcher ((a :: as).drop batch_size) batch_size
termination_by l.length
decreasing_by
  simp only [List.length_drop, List.length_cons]
  omega

theorem batcher_nil (batch_size : Nat) : batcher ([] : List α) batch_size = [] := by
  simp [batcher]

theorem batcher_cons (a : α) (as : List α) (batch_size : Nat) (h : batch_size ≠ 0) :
    batcher (a :: as) batch_size =
      (a :: as).take batch_size :: batcher ((a :: as).drop batch_size) batch_size := by
  rw [batcher]
  simp [h]

/-- Concatenating the batches gives back the input list. -/
theorem batcher_join (batch_size : Nat) (hbs : 0 < batch_size) (l : List α) :
    (batcher l batch_size).flatten = l := by
  have H : ∀ n (l : List α), l.length = n → (batcher l batch_size).flatten = l := by
    intro n
    induction n using Nat.strong_induction_on with
    | _ n ih =>
      intro l hn
      match l with
      | [] => simp [batcher_nil]
      | a :: as =>
        rw [batcher_cons a as batch_size (Nat.pos_iff_ne_zero.mp hbs)]
        have hlt : ((a :: as).drop batch_size).length < n := by
          subst hn
          simp only [List.length_drop, List.length_cons]
          omega
        rw [List.flatten, ih _ hlt _ rfl, List.take_append_drop]
  exact H l.length l rfl

/-- Every batch is non-empty. -/
theorem batcher_ne_nil (batch_size : Nat) (hbs : 0 < batch_size) (l : List α)
    (c : List α) (hc : c ∈ batcher l batch_size) : c ≠ [] := by
  have H : ∀ n (l : List α), l.length = n → ∀ c ∈ batcher l batch_size, c ≠ [] := by
    intro n
    induction n using Nat.strong_induction_on with
    | _ n ih =>
      intro l hn c hc
      match l with
      | [] => simp [batcher_nil] at hc
      | a :: as =>
        rw [batcher_cons a as batch_size (Nat.pos_iff_ne_zero.mp hbs)] at hc
        rcases List.mem_cons.mp hc with h | h
        · subst h
          simp only [ne_eq, List.take_eq_nil_iff]
          intro habs
          rcases habs with habs | habs
          · exact absurd habs (Nat.pos_iff_ne_zero.mp hbs)
          · exact absurd habs (by simp)
        · have hlt : ((a :: as).drop batch_size).length < n := by
            subst hn
            simp only [List.length_drop, List.length_cons]
            omega
          exact ih _ hlt _ rfl c h
  exact H l.length l rfl c hc

/-- Every batch has at most `batch_size` elements. -/
theorem batcher_chunk_le (batch_size : Nat) (l : List α)
    (c : List α) (hc : c ∈ batcher l batch_size) : c.length ≤ batch_size := by
  have H : ∀ n (l : List α), l.length = n → ∀ c ∈ batcher l batch_size,
      c.length ≤ batch_size := by
    intro n
    induction n using Nat.strong_induction_on with
    | _ n ih =>
      intro l hn c hc
      match l with
      | [] => simp [batcher_nil] at hc
      | a :: as =>
        by_cases h0 : batch_size = 0
        · rw [batcher, dif_pos h0] at hc
          simp at hc
        · rw [batcher_cons a as batch_size h0] at hc
          rcases List.mem_cons.mp hc with h | h
          · subst h
            simp [List.length_take]
          · have hlt : ((a :: as).drop batch_size).length < n := by
              subst hn
              simp only [List.length_drop, List.length_cons]
              omega
            exact ih _ hlt _ rfl c h
  exact H l.length l rfl c hc

/-- Every batch except possibly the last is full. -/
theorem batcher_dropLast_full (batch_size : Nat) (l : List α)
    (c : List α) (hc : c ∈ (batcher l batch_size).dropLast) : c.length = batch_size := by
  have H : ∀ n (l : List α), l.length = n → ∀ c ∈ (batcher l batch_size).dropLast,
      c.length = batch_size := by
    intro n
    induction n using Nat.strong_induction_on with
    | _ n ih =>
      intro l hn c hc
      match l with
      | [] => simp [batcher_nil] at hc
      | a :: as =>
        by_cases h0 : batch_size = 0
        · rw [batcher, dif_pos h0] at hc
          simp at hc
        · rw [batcher_cons a as batch_size h0] at hc
          match hrest : batcher ((a :: as).drop batch_size) batch_size with
          | [] =>
            rw [hrest] at hc
            simp at hc
          | r :: rs =>
            rw [hrest, List.dropLast_cons_of_ne_nil (by simp)] at hc
            rcases List.mem_cons.mp hc with h | h
            · subst h
              have hne : (a :: as).drop batch_size ≠ [] := by
                intro habs
                rw [habs, batcher_nil] at hrest
                exact List.noConfusion hrest
              have hlen : batch_size < (a :: as).length := by
                by_contra hle
                exact hne (List.drop_eq_nil_of_le (Nat.le_of_not_lt hle))
              rw [List.length_take]
              simp only [List.length_cons] at hlen ⊢
              omega
            · have hlt : ((a :: as).drop batch_size).length < n := by
                subst hn
                simp only [List.length_drop, List.length_cons]
                omega
              exact ih _ hlt _ rfl c (by rw [hrest]; exact h)
  exact H l.length l rfl c hc

/-- The number of batches is `⌈l.length / batch_size⌉`. -/
theorem batcher_length (batch_size : Nat) (hbs : 0 < batch_size) (l : List α) :
    (batcher l batch_size).length = (l.length + batch_size - 1) / batch_size := by
  have H : ∀ n (l : List α), l.length = n →
      (batcher l batch_size).length = (l.length + batch_size - 1) / batch_size := by
    intro n
    induction n using Nat.strong_induction_on with
    | _ n ih =>
      intro l hn
      match l with
      | [] =>
        rw [batcher_nil]
        simp only [List.length_nil, Nat.zero_add]
        exact (Nat.div_eq_of_lt (by omega)).symm
      | a :: as =>
        rw [batcher_cons a as batch_size (Nat.pos_iff_ne_zero.mp hbs)]
        have hlt : ((a :: as).drop batch_size).length < n := by
          subst hn
          simp only [List.length_drop, List.length_cons]
          omega
        rw [List.length_cons, ih _ hlt _ rfl]
        simp only [List.length_drop, List.length_cons]
        rcases Nat.lt_or_ge (as.length + 1) batch_size with hsmall | hbig
        · have h1 : as.length + 1 - batch_size + batch_size - 1 = batch_size - 1 := by
            omega
          have h2 : as.length + 1 + batch_size - 1 = as.length + batch_size := by omega
          have h3 : (batch_size - 1) / batch_size = 0 := Nat.div_eq_of_lt (by omega)
          have h4 : as.length / batch_size = 0 := Nat.div_eq_of_lt (by omega)
          rw [h1, h2, Nat.add_div_right _ hbs, h3, h4]
        · have h1 : as.length + 1 - batch_size + batch_size - 1 = as.length := by omega
          have h2 : as.length + 1 + batch_size - 1 = as.length + batch_size := by omega
          rw [h1, h2, Nat.add_div_right _ hbs]
  exact H l.length l rfl

/-- `i < ⌈L / batch_size⌉` is exactly `i * batch_size < L`; this is also the
exact meaning of the source's real-valued comparison `i < L / batch_size`. -/
theorem lt_ceil_iff (batch_size : Nat) (hbs : 0 < batch_size) (i L : Nat) :
    i < (L + batch_size - 1) / batch_size ↔ i * batch_size < L := by
  rw [Nat.lt_iff_add_one_le, Nat.le_div_iff_mul_le hbs, Nat.add_mul, Nat.one_mul]
  omega

/-! ## utils.py: `check_filters` -/

/-- A record passed to `check_filters`: Python duck-typing is embedded as a
declared list of filterable attribute names together with `getattr` as a
function from attribute names to string values. -/
structure FilterModel where
  filterable_attrs : List String
  attr : String → String

/-- The loop body of `check_filters`: walk the `(field, match)` pairs in
order, raising `ValueError` at the first field outside `filterable_attrs`
and otherwise collecting `match(getattr(model, field))`. -/
def evalFilters (model : FilterModel) :
    List (String × (String → Bool)) → Except PyErr (List Bool)
  | [] => .ok []
  | (f, mtch) :: rest =>
    if f ∈ model.filterable_attrs then
      (evalFilters model rest).map (fun bs => mtch (model.attr f) :: bs)
    else .error (.invalidFilterField f)

/-- `utils.check_filters(model, regex_filters, _and)`: after the loop,
`return True` on an empty evaluation list, else
`(_and and all(evals)) or (not _and and any(evals))`. -/
def check_filters (model : FilterModel)
    (regex_filters : List (String × (String → Bool))) (_and : Bool) :
    Except PyErr Bool :=
  (evalFilters model regex_filters).map (fun evals =>
    if evals.isEmpty then true
    else (_and && evals.all id) || (!_and && evals.any id))

/-! ## geography.py -/

/-- The `Geography` dataclass fields used by `filter_to_params` (the
`reference_date` and derived `sort_index` play no role in any claim). -/
structure Geography where
  name : String
  geo_level : String
  requires : List String
  wildcard : List String
  optional_wildcard : String
  deriving DecidableEq, Repr

/-- `__post_init__`: `self.complexity = len(self.requires) + 1`. -/
def Geography.complexity (g : Geography) : Nat := g.requires.length + 1

/-- The keys of `geo_filters` in order of first occurrence: the iteration
order of the `defaultdict(list)` built by `filter_to_params`. -/
def distinctKeys (fs : List (String × String)) : List String :=
  fs.foldl (fun acc p => if p.1 ∈ acc then acc else acc ++ [p.1]) []

def joinComma (vs : List String) : String := String.intercalate "," vs

/-- The grouped dictionary `{k: ",".join(v) for k, v in filter_dict.items()}`
as an association list in `defaultdict` insertion order. -/
def groupFilters (fs : List (String × String)) : List (String × String) :=
  (distinctKeys fs).map
    (fun k => (k, joinComma ((fs.filter (fun p => p.1 == k)).map Prod.snd)))

/-- `Geography.filter_to_params(geo_filters)`.

* `geo_filters is None` yields the single pair `("for", f"{name}:*")`.
* Otherwise the filters are grouped and comma-joined; the loop over
  `[self.name] + self.requires` raises `ValueError` (MissingRequiredField)
  at the first field that is neither a filter key nor equal to
  `self.optional_wildcard`.
* `filters.pop(self.name)` raises `KeyError` when the name is not a key
  (reachable when `self.name == self.optional_wildcard`).
* The loop over the remaining entries tests
  `value == "*" and field not in self.wildcard`; in the source `field` is
  the `dataclasses.field` function (the loop variable is `f`), and a
  function is never an element of the string list `self.wildcard`, so the
  second conjunct is always true and the guard reduces to `value == "*"`. -/
def filter_to_params (g : Geography) (geo_filters : Option (List (String × String))) :
    Except PyErr (List (String × String)) :=
  match geo_filters with
  | none => .ok [("for", g.name ++ ":*")]
  | some gf =>
    match (g.name :: g.requires).find?
        (fun fld => ((groupFilters gf).lookup fld).isNone && fld != g.optional_wildcard) with
    | some f => .error (.missingRequiredField f)
    | none =>
      match (groupFilters gf).lookup g.name with
      | none => .error (.keyError g.name)
      | some nameVal =>
        match ((groupFilters gf).filter (fun p => p.1 != g.name)).find?
            (fun p => p.2 == "*") with
        | some p => .error (.unsupportedWildcard p.1)
        | none =>
          .ok (("for", g.name ++ ":" ++ nameVal) ::
            ((groupFilters gf).filter (fun p => p.1 != g.name)).map
              (fun p => ("in", p.1 ++ ":" ++ p.2)))

/-! ## utils.py: `force_regex_filters` -/

/-- A filter criterion as accepted by the library: either a bare string
pattern or a callable predicate (`CRITERION = Union[str, Callable]`). -/
inductive Criterion where
  | pat (pattern : String)
  | fn (f : String → Bool)

/-- Case-insensitive substring matching over the characters of two strings:
the semantics of `re.search(pattern, val, re.IGNORECASE) is not None` for a
pattern without regex metacharacters. -/
def listStartsWith : List Char → List Char → Bool
  | [], _ => true
  | _ :: _, [] => false
  | a :: as, b :: bs => a == b && listStartsWith as bs

def listInfix (needle : List Char) : List Char → Bool
  | [] => needle.isEmpty
  | c :: cs => listStartsWith needle (c :: cs) || listInfix needle cs

def reSearchCI (pattern val : String) : Bool :=
  listInfix (pattern.data.map Char.toLower) (val.data.map Char.toLower)

/-- The filter list built by the `force_regex_filters` wrapper before the
wrapped function runs.  A callable criterion is appended unchanged.  A
string criterion is replaced by the closure
`def match(val): return re.search(criterion, val, re.IGNORECASE) is not None`;
that closure reads the *loop variable* `criterion`, and it is only ever
called after the loop has finished, so every such closure sees the final
element's criterion.  When that final criterion is itself a callable,
`re.search` is handed a non-string pattern and raises (`none` here).
The regex engine is abstracted as the argument `reSearch`. -/
def force_regex_filters (reSearch : String → String → Bool)
    (rfs : List (String × Criterion)) : List (String × (String → Option Bool)) :=
  let lastCrit := (rfs.map Prod.snd).getLast?
  rfs.map (fun p =>
    match p.2 with
    | .fn f => (p.1, fun v => some (f v))
    | .pat _ => (p.1, fun v =>
        match lastCrit with
        | some (Criterion.pat q) => some (reSearch q v)
        | _ => none))

/-! ## group.py, variable.py, models/variable.py -/

/-- The `Group` dataclass. -/
structure Group where
  name : String
  description : String
  var_url : String
  deriving DecidableEq, Repr

def Group.filterable_attrs : List String := ["name", "description"]

/-- `getattr` on a `Group` (only reached for filterable fields). -/
def Group.attr (g : Group) (f : String) : String :=
  if f = "name" then g.name
  else if f = "description" then g.description
  else if f = "var_url" then g.var_url
  else ""

def Group.toFilterModel (g : Group) : FilterModel :=
  ⟨Group.filterable_attrs, g.attr⟩

/-- The `Variable` dataclass fields that filtering can inspect (`limit`,
`predicate_type` and `attributes` are carried by the record but are not
filterable and play no role in any claim). -/
structure Variable where
  name : String
  label : String
  group_name : String
  concept : String
  deriving DecidableEq, Repr

def Variable.filterable_attrs : List String :=
  ["name", "label", "concept", "group_name"]

/-- `getattr` on a `Variable` (only reached for filterable fields). -/
def Variable.attr (v : Variable) (f : String) : String :=
  if f = "name" then v.name
  else if f = "label" then v.label
  else if f = "concept" then v.concept
  else if f = "group_name" then v.group_name
  else ""

def Variable.toFilterModel (v : Variable) : FilterModel :=
  ⟨Variable.filterable_attrs, v.attr⟩

/-- The accumulation loop shared by `_search_groups` and
`_search_variables`: build each record from the (already fetched and
decoded) metadata, keep those for which `check_filters` returns true, and
propagate the exception it may raise. -/
def searchHits (toFM : α → FilterModel)
    (models : List α) (regex_filters : List (String × (String → Bool)))
    (_and : Bool) : Except PyErr (List α) :=
  match models with
  | [] => .ok []
  | m :: rest =>
    match check_filters (toFM m) regex_filters _and with
    | .error e => .error e
    | .ok b =>
      match searchHits toFM rest regex_filters _and with
      | .error e => .error e
      | .ok tl => .ok (if b then m :: tl else tl)

/-- `group._search_groups`: the decoded records stand in for the fetched
metadata document; the filter combination mode is `_and=(and_or == "and")`. -/
def search_groups (groups : List Group)
    (regex_filters : List (String × (String → Bool))) (and_or : String) :
    Except PyErr (List Group) :=
  searchHits Group.toFilterModel groups regex_filters (and_or == "and")

/-- `variable._search_variables`: the decoded records stand in for the
fetched metadata document; the mode is `_and=(and_or == "and")`. -/
def search_variables (vars : List Variable)
    (regex_filters : List (String × (String → Bool))) (and_or : String) :
    Except PyErr (List Variable) :=
  searchHits Variable.toFilterModel vars regex_filters (and_or == "and")

/-! ## dataset.py: `search_datasets` path matching -/

/-- `str.endswith`, expressed over the character lists. -/
def strEndsWith (s suffix : String) : Bool :=
  listStartsWith suffix.data.reverse s.data.reverse

/-- The Python substring test `p in s`, expressed over the character lists. -/
def strContainsSub (s p : String) : Bool :=
  listInfix p.data s.data

/-- The predicate of `search_datasets` on a candidate dataset path:
`(not include_sub_datasets and dataset.path.endswith(p)) or
 (include_sub_datasets and p in dataset.path)`. -/
def keepDataset (dataset_path p : String) (include_sub_datasets : Bool) : Bool :=
  (!include_sub_datasets && strEndsWith dataset_path p) ||
    (include_sub_datasets && strContainsSub dataset_path p)

/-- The filtering performed by `search_datasets` over the catalog's dataset
paths (the catalog fetch, JSON decoding and record construction around it
are the identity on the paths).  `p = path or ""` maps both a missing and
an empty `path` argument to `""`. -/
def search_datasets (paths : List String) (path : Option String)
    (include_sub_datasets : Bool) : List String :=
  let p := match path with
    | none => ""
    | some s => if s = "" then "" else s
  paths.filter (fun d => keepDataset d p include_sub_datasets)

/-! ## dataset.py: `download` and `_download` -/

/-- The Python slice `row[: -1 * geo_complexity]`: for `geo_complexity = 0`
this is `row[:0] = []`, otherwise it keeps all but the last
`geo_complexity` entries (clamping to empty when the row is shorter). -/
def pySliceNeg (geo_complexity : Nat) (row : List String) : List String :=
  if geo_complexity = 0 then []
  else row.take (row.length - geo_complexity)

/-- Strip exactly the `geo_complexity` trailing entries of a row (the
specification's wording for the per-chunk column strip). -/
def dropLastCols (geo_complexity : Nat) (row : List String) : List String :=
  row.take (row.length - geo_complexity)

/-- `enumerate(xs, start)` followed by a map: the loop counter is threaded
explicitly. -/
def mapFrom (f : Nat → α → β) : Nat → List α → List β
  | _, [] => []
  | i, a :: as => f i a :: mapFrom f (i + 1) as

/-- `[list(chain(*row_batches)) for row_batches in zip(*batch_outputs)]`:
`zip(*_)` truncates to the shortest batch output (and yields nothing for
zero batches), and `chain` concatenates the paired rows. -/
def zipChain (batch_outputs : List (List (List String))) : List (List String) :=
  match (batch_outputs.map List.length).min? with
  | none => []
  | some n =>
    (List.range n).map
      (fun r => (batch_outputs.map (fun rows => rows.getD r [])).flatten)

/-- `Dataset._download(geo_complexity, geo_params, var_names, var_batch_size)`.

The HTTP layer is abstracted by the oracle `resp`, mapping the request's
query parameters to the decoded JSON rows of a successful response.  The
source computes `expected_batches = len(var_names) / var_batch_size` in
real division (raising `ZeroDivisionError` when the batch size is zero) and
strips batch `i` (1-based) when `i < expected_batches`; for a positive
batch size `i < L / bs` holds exactly when `i * bs < L`, which is the form
used here. -/
def download_batches (resp : List (String × String) → List (List String))
    (geo_complexity : Nat) (geo_params : List (String × String))
    (var_names : List String) (var_batch_size : Nat) :
    List (List (List String)) :=
  mapFrom
    (fun i batch =>
      let results := resp (("get", joinComma batch) :: geo_params)
      if i * var_batch_size < var_names.length then
        results.map (pySliceNeg geo_complexity)
      else results)
    1 (batcher var_names var_batch_size)

def download_impl (resp : List (String × String) → List (List String))
    (geo_complexity : Nat) (geo_params : List (String × String))
    (var_names : List String) (var_batch_size : Nat) :
    Except PyErr (List (List String)) :=
  if var_batch_size = 0 then .error .zeroDivisionError
  else .ok (zipChain
    (download_batches resp geo_complexity geo_params var_names var_batch_size))

/-- The specification's account of `_download`: partition the names with
`batcher`, fetch each chunk's rows, strip exactly `geo_complexity` trailing
columns from every chunk's rows except the last chunk's, and concatenate
the chunks' kept columns per row index in chunk order. -/
def stitch_spec (resp : List (String × String) → List (List String))
    (geo_complexity : Nat) (geo_params : List (String × String))
    (var_names : List String) (var_batch_size : Nat) : List (List String) :=
  let chunks := batcher var_names var_batch_size
  zipChain (mapFrom
    (fun i batch =>
      let rows := resp (("get", joinComma batch) :: geo_params)
      if i = chunks.length then rows else rows.map (dropLastCols geo_complexity))
    1 chunks)

/-- `Dataset.download(...)` up to the final `_download` call: resolve the
geography (a `geo_level` lookup via `search_geography` — abstracted as the
oracle `searchGeo` — takes precedence, and indexing `[0]` into an empty
result raises `IndexError`), build the geography parameters, and resolve
the variable names (`variable_names` takes precedence over `variables`).
The value returned is the argument triple handed to `_download`. -/
def download_args (searchGeo : String → List Geography)
    (geo_level : Option String) (geography : Option Geography)
    (geo_filters : Option (List (String × String)))
    (variable_names : Option (List String)) (vars : Option (List Variable)) :
    Except PyErr (Nat × List (String × String) × List String) :=
  match (match geo_level with
    | some gl =>
      match searchGeo gl with
      | [] => Except.error PyErr.indexError
      | g :: _ => Except.ok g
    | none =>
      match geography with
      | some g => Except.ok g
      | none =>
        Except.error
          (PyErr.missingArgument "must specify either geo_level or geography")) with
  | .error e => .error e
  | .ok geo =>
    match filter_to_params geo geo_filters with
    | .error e => .error e
    | .ok geo_params =>
      match (match variable_names with
        | some ns => Except.ok ns
        | none =>
          match vars with
          | some vs => Except.ok (vs.map Variable.name)
          | none =>
            Except.error
              (PyErr.missingArgument
                "must specify either variable_names or variables")) with
      | .error e => .error e
      | .ok var_names => .ok (geo.complexity, geo_params, var_names)

/-! ## Helper lemmas -/

/-- With only valid fields, the `check_filters` loop collects exactly the
per-filter evaluations. -/
theorem evalFilters_ok (model : FilterModel)
    (rfs : List (String × (String → Bool)))
    (hvalid : ∀ p ∈ rfs, p.1 ∈ model.filterable_attrs) :
    evalFilters model rfs = .ok (rfs.map (fun p => p.2 (model.attr p.1))) := by
  induction rfs with
  | nil => rfl
  | cons p rest ih =>
    obtain ⟨f, mtch⟩ := p
    rw [evalFilters, if_pos (hvalid _ (List.mem_cons_self _ _)),
      ih (fun q hq => hvalid q (List.mem_cons_of_mem _ hq))]
    rfl

theorem map_any_id (f : α → Bool) (l : List α) : (l.map f).any id = l.any f := by
  induction l with
  | nil => rfl
  | cons a as ih => simp [List.any_cons, ih]

theorem map_all_id (f : α → Bool) (l : List α) : (l.map f).all id = l.all f := by
  induction l with
  | nil => rfl
  | cons a as ih => simp [List.all_cons, ih]

/-- The mode combination of `check_filters` on valid fields. -/
theorem check_filters_eval (model : FilterModel)
    (rfs : List (String × (String → Bool))) (_and : Bool)
    (hvalid : ∀ p ∈ rfs, p.1 ∈ model.filterable_attrs) :
    check_filters model rfs _and =
      .ok (if rfs.isEmpty then true
        else if _and then rfs.all (fun p => p.2 (model.attr p.1))
        else rfs.any (fun p => p.2 (model.attr p.1))) := by
  rw [check_filters, evalFilters_ok model rfs hvalid]
  cases rfs with
  | nil => rfl
  | cons p rest =>
    simp only [Except.map, List.isEmpty_cons, List.map, Bool.false_eq_true,
      if_false, List.all_cons, List.any_cons]
    cases _and <;> simp [map_any_id, map_all_id]

/-- An invalid field makes the `check_filters` loop raise at the first
offender. -/
theorem evalFilters_error (model : FilterModel)
    (rfs : List (String × (String → Bool)))
    (hbad : ∃ p ∈ rfs, p.1 ∉ model.filterable_attrs) :
    ∃ f, f ∉ model.filterable_attrs ∧
      evalFilters model rfs = .error (.invalidFilterField f) := by
  induction rfs with
  | nil => simp at hbad
  | cons p rest ih =>
    obtain ⟨f, mtch⟩ := p
    by_cases hf : f ∈ model.filterable_attrs
    · have hrest : ∃ q ∈ rest, q.1 ∉ model.filterable_attrs := by
        rcases hbad with ⟨q, hq, hq2⟩
        rcases List.mem_cons.mp hq with h | h
        · subst h
          exact absurd hf hq2
        · exact ⟨q, h, hq2⟩
      obtain ⟨f0, hf0, herr⟩ := ih hrest
      refine ⟨f0, hf0, ?_⟩
      rw [evalFilters, if_pos hf, herr]
      rfl
    · exact ⟨f, hf, by rw [evalFilters, if_neg hf]⟩

/-- `searchHits` on valid fields filters the model list with the mode's
combination of the criteria. -/
theorem searchHits_ok (toFM : α → FilterModel) (ms : List α)
    (rfs : List (String × (String → Bool))) (_and : Bool)
    (hvalid : ∀ m ∈ ms, ∀ p ∈ rfs, p.1 ∈ (toFM m).filterable_attrs) :
    searchHits toFM ms rfs _and =
      .ok (ms.filter (fun m =>
        if rfs.isEmpty then true
        else if _and then rfs.all (fun p => p.2 ((toFM m).attr p.1))
        else rfs.any (fun p => p.2 ((toFM m).attr p.1)))) := by
  induction ms with
  | nil => rfl
  | cons m rest ih =>
    rw [searchHits]
    rw [check_filters_eval (toFM m) rfs _and (hvalid m (List.mem_cons_self _ _))]
    rw [ih (fun q hq => hvalid q (List.mem_cons_of_mem _ hq))]
    show Except.ok (if (if rfs.isEmpty then true
        else if _and then rfs.all (fun p => p.2 ((toFM m).attr p.1))
        else rfs.any (fun p => p.2 ((toFM m).attr p.1)))
      then m :: rest.filter (fun m => if rfs.isEmpty then true
        else if _and then rfs.all (fun p => p.2 ((toFM m).attr p.1))
        else rfs.any (fun p => p.2 ((toFM m).attr p.1)))
      else rest.filter (fun m => if rfs.isEmpty then true
        else if _and then rfs.all (fun p => p.2 ((toFM m).attr p.1))
        else rfs.any (fun p => p.2 ((toFM m).attr p.1)))) = _
    rw [List.filter_cons]

/-! ## Claim theorems -/

/-- C8: for every finite list and positive batch size, `batcher` yields
consecutive chunks of at most `batch_size` elements, all full except
possibly the last, whose concatenation in order is the input list; and
batching `range(9)` with batch size 5 yields `[[0,1,2,3,4],[5,6,7,8]]`. -/
theorem batcher_partition_claim :
    (∀ (α : Type) (l : List α) (batch_size : Nat), 0 < batch_size →
      (batcher l batch_size).flatten = l ∧
      (∀ c ∈ batcher l batch_size, c.length ≤ batch_size) ∧
      (∀ c ∈ (batcher l batch_size).dropLast, c.length = batch_size)) ∧
    batcher (List.range 9) 5 = [[0, 1, 2, 3, 4], [5, 6, 7, 8]] := by
  constructor
  · intro α l batch_size hbs
    exact ⟨batcher_join batch_size hbs l,
      fun c hc => batcher_chunk_le batch_size l c hc,
      fun c hc => batcher_dropLast_full batch_size l c hc⟩
  · rw [show List.range 9 = [0, 1, 2, 3, 4, 5, 6, 7, 8] from rfl]
    rw [batcher_cons _ _ _ (by decide)]
    norm_num
    rw [batcher_cons _ _ _ (by decide)]
    norm_num [batcher_nil]

/-- C8 witness: the general part applied to `range(9)` with batch size 5. -/
theorem batcher_partition_claim_witness :
    (batcher (List.range 9) 5).flatten = List.range 9 ∧
    ∀ c ∈ batcher (List.range 9) 5, c.length ≤ 5 := by
  have h := batcher_partition_claim.1 Nat (List.range 9) 5 (by decide)
  exact ⟨h.1, h.2.1⟩

/-- C4: over predicates on valid fields, `check_filters` returns true on an
empty filter list in either mode; on a non-empty list, AND mode returns
true iff every criterion matches its field's value and OR mode returns
true iff at least one does. -/
theorem check_filters_modes (model : FilterModel)
    (rfs : List (String × (String → Bool))) (_and : Bool)
    (hvalid : ∀ p ∈ rfs, p.1 ∈ model.filterable_attrs) :
    check_filters model rfs _and =
      .ok (if rfs.isEmpty then true
        else if _and then rfs.all (fun p => p.2 (model.attr p.1))
        else rfs.any (fun p => p.2 (model.attr p.1))) :=
  check_filters_eval model rfs _and hvalid

/-- A two-field record matching the repository's test fixture. -/
def properModel : FilterModel :=
  ⟨["attr1", "attr2"], fun f => if f = "attr1" then "val1" else "val2"⟩

/-- C4 witness: one matching and one failing criterion on the fixture
record give AND = false and OR = true; the empty list passes both modes. -/
theorem check_filters_modes_witness :
    check_filters properModel
        [("attr1", fun v => v = "val1"), ("attr2", fun v => v = "val3")] true =
      .ok false ∧
    check_filters properModel
        [("attr1", fun v => v = "val1"), ("attr2", fun v => v = "val3")] false =
      .ok true ∧
    check_filters properModel [] true = .ok true ∧
    check_filters properModel [] false = .ok true := by
  refine ⟨?_, ?_, ?_, ?_⟩
  · rw [check_filters_modes properModel _ true (by decide)]
    rfl
  · rw [check_filters_modes properModel _ false (by decide)]
    rfl
  · rw [check_filters_modes properModel [] true (by decide)]
    rfl
  · rw [check_filters_modes properModel [] false (by decide)]
    rfl

/-- C6: any filter list containing a field outside the record's
`filterable_attrs` makes `check_filters` fail with `InvalidFilterField`
(for the first such field), in either mode. -/
theorem check_filters_invalid_field (model : FilterModel)
    (rfs : List (String × (String → Bool))) (_and : Bool)
    (hbad : ∃ p ∈ rfs, p.1 ∉ model.filterable_attrs) :
    ∃ f, f ∉ model.filterable_attrs ∧
      check_filters model rfs _and = .error (.invalidFilterField f) := by
  obtain ⟨f, hf, herr⟩ := evalFilters_error model rfs hbad
  exact ⟨f, hf, by rw [check_filters, herr]; rfl⟩

/-- C6 witness: filtering the fixture record on the unknown field `attr3`
fails with `InvalidFilterField`. -/
theorem check_filters_invalid_field_witness :
    ∃ f, f ∉ properModel.filterable_attrs ∧
      check_filters properModel [("attr3", fun v => v = "wrong")] true =
        .error (.invalidFilterField f) :=
  check_filters_invalid_field properModel [("attr3", fun v => v = "wrong")] true
    ⟨("attr3", fun v => v = "wrong"), by simp, by decide⟩

/-- C9: any `and_or` string other than exactly `"and"` is treated exactly
like `"or"` by `search_groups` and `search_variables` — the filters are
evaluated with OR semantics (shown explicitly for valid non-empty filter
lists) and no error is raised for the unrecognised mode string. -/
theorem search_mode_no_validation (and_or : String) (hmode : and_or ≠ "and")
    (groups : List Group) (vars : List Variable)
    (rfs : List (String × (String → Bool))) :
    search_groups groups rfs and_or = search_groups groups rfs "or" ∧
    search_variables vars rfs and_or = search_variables vars rfs "or" ∧
    ((∀ p ∈ rfs, p.1 ∈ Group.filterable_attrs) → rfs ≠ [] →
      search_groups groups rfs and_or =
        .ok (groups.filter (fun g => rfs.any (fun p => p.2 (g.attr p.1))))) := by
  have hb : (and_or == "and") = false := beq_eq_false_iff_ne.mpr hmode
  have hb2 : (("or" : String) == "and") = false := by decide
  refine ⟨?_, ?_, ?_⟩
  · rw [search_groups, search_groups, hb, hb2]
  · rw [search_variables, search_variables, hb, hb2]
  · intro hvalid hne
    rw [search_groups, hb]
    rw [searchHits_ok Group.toFilterModel groups rfs false (fun m _ => hvalid)]
    congr 1
    apply List.filter_congr
    intro g _
    rw [if_neg (by simpa [List.isEmpty_iff] using hne), if_neg (by simp)]
    rfl

/-- Sample records used by concrete witnesses. -/
def sampleGroup : Group := ⟨"B01001", "SEX BY AGE", "http://vars"⟩

def sampleVariable : Variable := ⟨"B01001_001E", "Estimate!!Total", "B01001", "SEX BY AGE"⟩

/-- C9 witness: the misspelled mode `"AND"` behaves exactly like `"or"` and
evaluates a valid filter list with OR semantics. -/
theorem search_mode_no_validation_witness :
    search_groups [sampleGroup] [("name", fun v => v = "B01001")] "AND" =
      search_groups [sampleGroup] [("name", fun v => v = "B01001")] "or" ∧
    search_groups [sampleGroup] [("name", fun v => v = "B01001")] "AND" =
      .ok [sampleGroup] := by
  have h := search_mode_no_validation "AND" (by decide)
    [sampleGroup] [sampleVariable] [("name", fun v => v = "B01001")]
  refine ⟨h.1, ?_⟩
  rw [h.2.2 (by decide) (by simp)]
  rfl

/-- C3 (against the code as written): in
`force_regex_filters([("label", "alpha"), ("concept", "beta")])` the
predicate produced for the first filter evaluates its argument against the
*last* filter's pattern — `"alpha"` itself does match the first filter's own
pattern, yet the normalized predicate rejects it — because the `match`
closure reads the loop variable `criterion` after the loop has ended.
Callable criteria do pass through unchanged. -/
theorem force_regex_filters_late_binding :
    (force_regex_filters reSearchCI
        [("label", .pat "alpha"), ("concept", .pat "beta")]).map
        (fun p => (p.1, p.2 "alpha")) =
      [("label", some false), ("concept", some false)] ∧
    reSearchCI "alpha" "alpha" = true ∧
    (∀ (reSearch : String → String → Bool) (rfs : List (String × Criterion))
        (f : String → Bool) (i : Nat) (fld : String),
        rfs[i]? = some (fld, .fn f) →
        (force_regex_filters reSearch rfs)[i]? =
          some (fld, fun v => some (f v))) := by
  refine ⟨by decide, by decide, ?_⟩
  intro reSearch rfs f i fld hget
  rw [force_regex_filters]
  simp only [List.getElem?_map, hget]
  rfl

/-- C7: `search_datasets` keeps a dataset path iff it contains the `path`
argument as a substring (`include_sub_datasets = true`) or ends with it
(`include_sub_datasets = false`); the defaulted empty path keeps every
dataset under the substring rule; and the `acs5` examples behave as
specified. -/
theorem search_datasets_matching :
    (∀ (paths : List String) (d q : String) (include_sub : Bool),
        d ∈ search_datasets paths (some q) include_sub ↔
          d ∈ paths ∧
            (if include_sub then strContainsSub d q else strEndsWith d q) = true) ∧
    (∀ paths : List String, search_datasets paths none true = paths) ∧
    keepDataset "acs/acs5" "acs5" false = true ∧
    keepDataset "acs/acs5/profile" "acs5" false = false ∧
    keepDataset "acs/acs5" "acs5" true = true ∧
    keepDataset "acs/acs5/profile" "acs5" true = true := by
  have hpath : ∀ q : String, (if q = "" then "" else q) = q := by
    intro q
    by_cases hq : q = "" <;> simp [hq]
  refine ⟨?_, ?_, by decide, by decide, by decide, by decide⟩
  · intro paths d q include_sub
    rw [search_datasets]
    simp only [hpath, List.mem_filter]
    constructor
    · rintro ⟨hmem, hkeep⟩
      refine ⟨hmem, ?_⟩
      cases include_sub <;> simpa [keepDataset] using hkeep
    · rintro ⟨hmem, hkeep⟩
      refine ⟨hmem, ?_⟩
      cases include_sub <;> simpa [keepDataset] using hkeep
  · intro paths
    rw [search_datasets]
    apply List.filter_eq_self.mpr
    intro d _
    have hinf : ∀ hay : List Char, listInfix [] hay = true := by
      intro hay
      cases hay <;> simp [listInfix, listStartsWith]
    simp [keepDataset, strContainsSub, hinf]

/-- C7 witness: the matching rule applied to the `acs5` examples. -/
theorem search_datasets_matching_witness :
    "acs/acs5" ∈ search_datasets ["acs/acs5", "acs/acs5/profile"] (some "acs5") false ∧
    "acs/acs5/profile" ∈
      search_datasets ["acs/acs5", "acs/acs5/profile"] (some "acs5") true ∧
    search_datasets ["acs/acs5", "acs/acs5/profile"] none true =
      ["acs/acs5", "acs/acs5/profile"] :=
  ⟨(search_datasets_matching.1 ["acs/acs5", "acs/acs5/profile"]
      "acs/acs5" "acs5" false).mpr ⟨by decide, by decide⟩,
   (search_datasets_matching.1 ["acs/acs5", "acs/acs5/profile"]
      "acs/acs5/profile" "acs5" true).mpr ⟨by decide, by decide⟩,
   search_datasets_matching.2.1 ["acs/acs5", "acs/acs5/profile"]⟩

/-- A geography shaped like the census "county" level: `state` is required
and is allowed to take a wildcard. -/
def countyGeo : Geography :=
  { name := "county", geo_level := "050", requires := ["state"],
    wildcard := ["state"], optional_wildcard := "" }

/-- C2 (against the code as written): the wildcard filter
`[("county", "001"), ("state", "*")]` is rejected with UnsupportedWildcard
even though `"state"` is in the geography's allowed-wildcard list, because
the guard `value == "*" and field not in self.wildcard` tests the imported
`dataclasses.field` function — never an element of the string list — instead
of the loop variable `f`, so every wildcarded `in`-field is rejected. -/
theorem filter_to_params_rejects_allowed_wildcard :
    filter_to_params countyGeo (some [("county", "001"), ("state", "*")]) =
      .error (.unsupportedWildcard "state") ∧
    "state" ∈ countyGeo.wildcard := by
  exact ⟨rfl, by decide⟩

/-- C5: with a supplied geography filter list, `filter_to_params` fails
with `MissingRequiredField` exactly at the first field of
`[name] + requires` missing from the grouped filter set and different
from the designated optional-wildcard field; when no such field exists
(in particular when the omitted required field *is* the optional-wildcard
field), the call succeeds, provided the name field is supplied and no
remaining joined value is the wildcard `"*"`. -/
theorem filter_to_params_required_fields :
    (∀ (g : Geography) (gf : List (String × String)) (f : String),
        (g.name :: g.requires).find?
            (fun fld => ((groupFilters gf).lookup fld).isNone &&
              fld != g.optional_wildcard) = some f →
        filter_to_params g (some gf) = .error (.missingRequiredField f)) ∧
    (∀ (g : Geography) (gf : List (String × String)),
        (g.name :: g.requires).find?
            (fun fld => ((groupFilters gf).lookup fld).isNone &&
              fld != g.optional_wildcard) = none →
        ((groupFilters gf).lookup g.name).isSome = true →
        (∀ p ∈ groupFilters gf, p.1 ≠ g.name → p.2 ≠ "*") →
        ∃ out, filter_to_params g (some gf) = .ok out) := by
  constructor
  · intro g gf f hfind
    simp only [filter_to_params, hfind]
  · intro g gf hfind hname hnw
    obtain ⟨nv, hnv⟩ := Option.isSome_iff_exists.mp hname
    have hwild : ((groupFilters gf).filter (fun p => p.1 != g.name)).find?
        (fun p => p.2 == "*") = none := by
      apply List.find?_eq_none.mpr
      intro p hp
      obtain ⟨hmem, hne⟩ := List.mem_filter.mp hp
      simpa using hnw p hmem (by simpa using hne)
    refine ⟨("for", g.name ++ ":" ++ nv) ::
      ((groupFilters gf).filter (fun p => p.1 != g.name)).map
        (fun p => ("in", p.1 ++ ":" ++ p.2)), ?_⟩
    simp only [filter_to_params, hfind, hnv, hwild]

/-- A geography whose required `state` field is not allowed to be omitted:
no optional-wildcard field is designated. -/
def strictGeo : Geography :=
  { name := "county", geo_level := "050", requires := ["state"],
    wildcard := [], optional_wildcard := "" }

/-- A geography designating `state` as the optional-wildcard field, so a
filter may omit it. -/
def lenientGeo : Geography :=
  { name := "county", geo_level := "050", requires := ["state"],
    wildcard := [], optional_wildcard := "state" }

/-- C5 witness: omitting required `state` fails with
`MissingRequiredField("state")`; omitting it where `state` is the
designated optional-wildcard field succeeds. -/
theorem filter_to_params_required_fields_witness :
    filter_to_params strictGeo (some [("county", "001")]) =
      .error (.missingRequiredField "state") ∧
    ∃ out, filter_to_params lenientGeo (some [("county", "001")]) = .ok out :=
  ⟨filter_to_params_required_fields.1 strictGeo [("county", "001")] "state" (by decide),
   filter_to_params_required_fields.2 lenientGeo [("county", "001")] (by decide)
     (by decide) (by decide)⟩

theorem mapFrom_congr (f f' : Nat → α → β) (s : Nat) (l : List α)
    (h : ∀ i, s ≤ i → i < s + l.length → ∀ a, f i a = f' i a) :
    mapFrom f s l = mapFrom f' s l := by
  induction l generalizing s with
  | nil => rfl
  | cons a as ih =>
    rw [mapFrom, mapFrom, h s le_rfl (by simp) a]
    rw [ih (s + 1) (fun i h1 h2 b => h i (by omega) (by simp; omega) b)]

theorem pySliceNeg_eq_dropLastCols (geo_complexity : Nat) (hg : geo_complexity ≠ 0) :
    pySliceNeg geo_complexity = dropLastCols geo_complexity := by
  funext row
  rw [pySliceNeg, if_neg hg, dropLastCols]

/-- C1: for a positive batch size and positive geography complexity,
`_download` equals its specification: partition the names with `batcher`,
strip exactly `geo_complexity` trailing columns from every chunk's rows
except the last chunk's — also when the name count is an exact multiple of
the batch size — and concatenate each chunk's kept columns per row index in
chunk order.  The second conjunct pins down that `dropLastCols` removes
exactly the `geo_complexity` trailing entries of a sufficiently long row. -/
theorem download_stitching
    (resp : List (String × String) → List (List String))
    (geo_complexity : Nat) (geo_params : List (String × String))
    (var_names : List String) (var_batch_size : Nat)
    (hbs : 0 < var_batch_size) (hg : 1 ≤ geo_complexity) :
    download_impl resp geo_complexity geo_params var_names var_batch_size =
      .ok (stitch_spec resp geo_complexity geo_params var_names var_batch_size) ∧
    ∀ row : List String, geo_complexity ≤ row.length →
      dropLastCols geo_complexity row ++ row.drop (row.length - geo_complexity) = row ∧
      (dropLastCols geo_complexity row).length = row.length - geo_complexity := by
  constructor
  · rw [download_impl, if_neg (Nat.pos_iff_ne_zero.mp hbs)]
    rw [download_batches, stitch_spec]
    apply congrArg Except.ok
    apply congrArg zipChain
    apply mapFrom_congr
    intro i h1 h2 batch
    have hn : (batcher var_names var_batch_size).length =
        (var_names.length + var_batch_size - 1) / var_batch_size :=
      batcher_length var_batch_size hbs var_names
    have hiff : i * var_batch_size < var_names.length ↔
        i < (batcher var_names var_batch_size).length := by
      rw [hn]
      exact (lt_ceil_iff var_batch_size hbs i var_names.length).symm
    by_cases hcase : i = (batcher var_names var_batch_size).length
    · rw [if_neg (by rw [hiff, hcase]; exact lt_irrefl _), if_pos hcase]
    · have hlt : i < (batcher var_names var_batch_size).length := by
        simp only [List.length_cons] at h2
        omega
      rw [if_pos (hiff.mpr hlt), if_neg hcase,
        pySliceNeg_eq_dropLastCols geo_complexity (by omega)]
  · intro row hrow
    constructor
    · rw [dropLastCols, List.take_append_drop]
    · rw [dropLastCols, List.length_take]
      omega

/-- A response oracle for the witness: two variable chunks (`A,B` then `C`)
over a geography of complexity 2, every response carrying the two trailing
geography columns. -/
def respSample : List (String × String) → List (List String) :=
  fun params =>
    if params = [("get", "A,B"), ("for", "state:*")] then
      [["A", "B", "NAME", "state"], ["1", "2", "Alaska", "02"]]
    else if params = [("get", "C"), ("for", "state:*")] then
      [["C", "NAME", "state"], ["3", "Alaska", "02"]]
    else []

/-- C1 witness: the theorem applied at a name count that is an exact
multiple of the batch size (3 names would not be; 2 names with batch size
1 and also 3 names with batch size 2 are exercised). -/
theorem download_stitching_witness :
    download_impl respSample 2 [("for", "state:*")] ["A", "B", "C"] 2 =
      .ok (stitch_spec respSample 2 [("for", "state:*")] ["A", "B", "C"] 2) ∧
    dropLastCols 2 ["1", "2", "Alaska", "02"] ++ ["Alaska", "02"] =
      ["1", "2", "Alaska", "02"] := by
  constructor
  · exact (download_stitching respSample 2 [("for", "state:*")] ["A", "B", "C"] 2
      (by decide) (by decide)).1
  · have h := (download_stitching respSample 2 [("for", "state:*")]
      ["A", "B", "C"] 2 (by decide) (by decide)).2 ["1", "2", "Alaska", "02"] (by decide)
    simpa using h.1

/-- `filter_to_params` can fail, but never with `MissingArgument`. -/
theorem filter_to_params_ne_missingArgument (g : Geography)
    (gfo : Option (List (String × String))) (s : String) :
    filter_to_params g gfo ≠ .error (.missingArgument s) := by
  cases gfo with
  | none => simp [filter_to_params]
  | some gf =>
    cases hfind : (g.name :: g.requires).find?
        (fun fld => ((groupFilters gf).lookup fld).isNone &&
          fld != g.optional_wildcard) with
    | some f => simp [filter_to_params, hfind]
    | none =>
      cases hlook : (groupFilters gf).lookup g.name with
      | none => simp [filter_to_params, hfind, hlook]
      | some nameVal =>
        cases hw : ((groupFilters gf).filter (fun p => p.1 != g.name)).find?
            (fun p => p.2 == "*") with
        | some p => simp [filter_to_params, hfind, hlook, hw]
        | none => simp [filter_to_params, hfind, hlook, hw]

/-- C10: in `Dataset.download`, a supplied `geo_level` makes the
`geography` argument irrelevant, and a supplied `variable_names` makes the
`variables` argument irrelevant; `MissingArgument` can only be raised when
both members of one of the two pairs are absent. -/
theorem download_arg_resolution :
    (∀ (searchGeo : String → List Geography) (gl : String)
        (geography : Option Geography)
        (gf : Option (List (String × String)))
        (vn : Option (List String)) (vars : Option (List Variable)),
        download_args searchGeo (some gl) geography gf vn vars =
          download_args searchGeo (some gl) none gf vn vars) ∧
    (∀ (searchGeo : String → List Geography) (gl : Option String)
        (geography : Option Geography)
        (gf : Option (List (String × String)))
        (ns : List String) (vars : Option (List Variable)),
        download_args searchGeo gl geography gf (some ns) vars =
          download_args searchGeo gl geography gf (some ns) none) ∧
    (∀ (searchGeo : String → List Geography) (gl : Option String)
        (geography : Option Geography)
        (gf : Option (List (String × String)))
        (vn : Option (List String)) (vars : Option (List Variable))
        (s : String),
        gl.isSome = true ∨ geography.isSome = true →
        vn.isSome = true ∨ vars.isSome = true →
        download_args searchGeo gl geography gf vn vars ≠
          .error (.missingArgument s)) := by
  refine ⟨fun _ _ _ _ _ _ => rfl, ?_, ?_⟩
  · intro searchGeo gl geography gf ns vars
    cases gl with
    | some g =>
      cases searchGeo g with
      | nil => rfl
      | cons geo rest => rfl
    | none =>
      cases geography with
      | some geo => rfl
      | none => rfl
  · intro searchGeo gl geography gf vn vars s hgeo hvar
    have hcont : ∀ geo : Geography,
        ((match filter_to_params geo gf with
          | Except.error e => Except.error e
          | Except.ok geo_params =>
            match (match vn with
              | some ns => Except.ok ns
              | none =>
                match vars with
                | some vs => Except.ok (vs.map Variable.name)
                | none =>
                  Except.error
                    (PyErr.missingArgument
                      "must specify either variable_names or variables")) with
            | Except.error e => Except.error e
            | Except.ok var_names =>
              Except.ok (geo.complexity, geo_params, var_names)) :
          Except PyErr (Nat × List (String × String) × List String)) ≠
          Except.error (.missingArgument s) := by
      intro geo
      cases hfp : filter_to_params geo gf with
      | error e =>
        have hne := filter_to_params_ne_missingArgument geo gf s
        rw [hfp] at hne
        simpa using hne
      | ok ps =>
        cases vn with
        | some ns => simp
        | none =>
          cases vars with
          | some vs => simp
          | none => simp at hvar
    simp only [download_args]
    cases gl with
    | some g =>
      cases hsg : searchGeo g with
      | nil => simp [hsg]
      | cons geo rest =>
        simp only [hsg]
        exact hcont geo
    | none =>
      cases geography with
      | some geo => exact hcont geo
      | none => simp at hgeo

/-- C10 witness: with a geography object and a variable-name list supplied
(their pair partners absent), no `MissingArgument` is raised, and the
precedence equations at concrete inputs. -/
theorem download_arg_resolution_witness :
    download_args (fun _ => []) none (some strictGeo) none (some ["A"]) none ≠
      .error (.missingArgument "must specify either geo_level or geography") ∧
    download_args (fun _ => [strictGeo]) (some "050") (some lenientGeo) none
        (some ["A"]) none =
      download_args (fun _ => [strictGeo]) (some "050") none none (some ["A"]) none :=
  ⟨download_arg_resolution.2.2 (fun _ => []) none (some strictGeo) none
      (some ["A"]) none _ (Or.inr rfl) (Or.inl rfl),
   download_arg_resolution.1 (fun _ => [strictGeo]) "050" (some lenientGeo) none
      (some ["A"]) none⟩

end Pycensus
